import Mathlib

/-!
Shallow embedding of the Overwatch Stat Tracker (`src/app.py`) and proofs
about its fetch-with-backoff client, stat normalizer, and snapshot store.

Conventions of the embedding:
* JSON values are an inductive type `Json`; Python dicts become association
  lists in insertion order (keys unique for dicts produced by a JSON parser).
* Python floats are modelled as rationals: every value the program computes
  here (doublings of 1 capped at 30, integer stats, ratios) is exact in
  binary floating point, so the rational model is faithful.
* The HTTP transport is abstracted as a function from attempt index to the
  response delivered for that attempt; `time.sleep` is modelled by recording
  the slept duration in a trace.
* The snapshot CSV file is modelled at cell granularity: a file is a header
  (list of column names) plus rows of cells, where a cell is a string, a
  number, or absent (empty cell / NaN).  Decimal rendering of floats by
  `to_csv`/`read_csv` is below this model's granularity.
-/

/-- JSON values as delivered by `requests.Response.json()`. -/
inductive Json where
  | null
  | bool (b : Bool)
  | num (q : ℚ)
  | str (s : String)
  | arr (items : List Json)
  | obj (fields : List (String × Json))

/-- Numeric value of a list of decimal digit characters. -/
def digitsVal (cs : List Char) : ℕ :=
  cs.foldl (fun a c => 10 * a + (c.toNat - 48)) 0

/-- Models Python `str.isdigit()` on ASCII strings: nonempty and all
characters are decimal digits. -/
def pyIsDigit (s : String) : Bool :=
  !s.isEmpty && s.toList.all Char.isDigit

/-- Longest leading run of decimal digits, and the remainder. -/
def takeDigits : List Char → List Char × List Char
  | [] => ([], [])
  | c :: cs =>
    if c.isDigit then
      let p := takeDigits cs
      (c :: p.1, p.2)
    else ([], c :: cs)

/-- Optional leading sign; returns (is-negative, remainder). -/
def parseSign : List Char → Bool × List Char
  | '-' :: cs => (true, cs)
  | '+' :: cs => (false, cs)
  | cs => (false, cs)

/-- Digits with an optional fractional part, e.g. `12`, `12.5`, `.5`, `12.`. -/
def parseMantissa (cs : List Char) : Option (ℚ × List Char) :=
  let ip := takeDigits cs
  match ip.2 with
  | '.' :: r2 =>
    let fp := takeDigits r2
    if ip.1.isEmpty && fp.1.isEmpty then none
    else some ((digitsVal ip.1 : ℚ) + (digitsVal fp.1 : ℚ) / (10 : ℚ) ^ fp.1.length, fp.2)
  | _ => if ip.1.isEmpty then none else some ((digitsVal ip.1 : ℚ), ip.2)

/-- Optional exponent part `e±ddd`; absence contributes exponent 0. -/
def parseExponent (cs : List Char) : Option (ℤ × List Char) :=
  match cs with
  | 'e' :: r | 'E' :: r =>
    let sg := parseSign r
    let ds := takeDigits sg.2
    if ds.1.isEmpty then none
    else some (if sg.1 then -(digitsVal ds.1 : ℤ) else (digitsVal ds.1 : ℤ), ds.2)
  | _ => some (0, cs)

/-- Leading and trailing whitespace stripped (Python `str.strip()`). -/
def trimChars (cs : List Char) : List Char :=
  ((cs.dropWhile Char.isWhitespace).reverse.dropWhile Char.isWhitespace).reverse

/-- Models Python `float(s)` on finite decimal literals: optional sign,
mantissa, optional exponent, surrounding whitespace stripped.  Non-finite
spellings (`inf`, `nan`) are outside the rational model and yield `none`. -/
def pyFloat (s : String) : Option ℚ :=
  let cs := trimChars s.toList
  let sg := parseSign cs
  match parseMantissa sg.2 with
  | none => none
  | some m =>
    match parseExponent m.2 with
    | none => none
    | some e =>
      if e.2.isEmpty then some ((if sg.1 then -m.1 else m.1) * (10 : ℚ) ^ e.1)
      else none

/-- Models Python `float(x)` applied to a JSON value: numbers and booleans
convert, strings are parsed as decimal literals, everything else raises
(modelled as `none`). -/
def toFloat : Json → Option ℚ
  | .num q => some q
  | .bool b => some (if b then 1 else 0)
  | .str s => pyFloat s
  | _ => none

/-! ## HTTP client with backoff (`overfast_get`, app.py lines 42-61) -/

/-- One HTTP response from the abstract transport.  `body = none` models a
body that is not valid JSON (so `r.json()` raises). -/
structure Response where
  status : ℕ
  retryAfter : Option String
  body : Option Json

/-- Errors `overfast_get` can raise: `raise_for_status` on a non-429 error
status, a JSON decode failure, or the terminal rate-limit error carrying
the request URL. -/
inductive FetchError where
  | httpError (status : ℕ)
  | jsonError
  | rateLimited (url : String)
deriving DecidableEq

/-- Observable result of a run of `overfast_get`: the outcome, the number of
GET requests issued, and for each 429 handled the backoff delay in effect
(`delaysUsed`) and the duration actually slept (`waits`). -/
structure FetchResult where
  outcome : Except FetchError Json
  attempts : ℕ
  delaysUsed : List ℚ
  waits : List ℚ

/-- app.py lines 55-56: `wait_s = float(retry_after) if retry_after and
retry_after.isdigit() else delay`.  On a digit string, `float` returns its
decimal value. -/
def retryAfterWait (retryAfter : Option String) (delay : ℚ) : ℚ :=
  match retryAfter with
  | some ra => if !ra.isEmpty && pyIsDigit ra then (digitsVal ra.toList : ℚ) else delay
  | none => delay

/-- Whether a response carries a usable `Retry-After` hint (present, nonempty,
all decimal digits) that overrides the backoff delay for the current wait. -/
def hintUsable (r : Response) : Bool :=
  match r.retryAfter with
  | some s => !s.isEmpty && pyIsDigit s
  | none => false

/-- The retry loop of `overfast_get` (app.py lines 48-61), parametrised by
fuel (remaining attempts), the index of the next attempt, and the current
backoff delay. -/
def overfastLoop (responses : ℕ → Response) (url : String) : ℕ → ℕ → ℚ → FetchResult
  | 0, _, _ => ⟨.error (.rateLimited url), 0, [], []⟩
  | fuel + 1, attempt, delay =>
    let r := responses attempt
    if r.status ≠ 429 then
      if 400 ≤ r.status then ⟨.error (.httpError r.status), 1, [], []⟩
      else
        match r.body with
        | some j => ⟨.ok j, 1, [], []⟩
        | none => ⟨.error .jsonError, 1, [], []⟩
    else
      let w := retryAfterWait r.retryAfter delay
      let rest := overfastLoop responses url fuel (attempt + 1) (min (delay * 2) 30)
      ⟨rest.outcome, rest.attempts + 1, delay :: rest.delaysUsed, w :: rest.waits⟩

def BASE_URL : String := "https://overfast-api.tekrop.fr"

/-- app.py lines 42-61: GET with retry on 429, initial delay 1, doubling
capped at 30, giving up after `max_retries` attempts. -/
def overfast_get (responses : ℕ → Response) (path : String) (max_retries : ℕ) : FetchResult :=
  overfastLoop responses (BASE_URL ++ path) max_retries 0 1

/-- The pure backoff-delay sequence: 1, then doubling capped at 30.  This is
exactly the evolution of `delay` in the loop (line 47 and line 59). -/
def delays : ℕ → ℚ
  | 0 => 1
  | n + 1 => min (delays n * 2) 30

/-! ## Stat normalizer (`pluck_num`, `career_to_table`, app.py lines 104-142) -/

/-- Python dict lookup on an association list (`k in cur` / `cur[k]`). -/
def dictGet (fields : List (String × Json)) (k : String) : Option Json :=
  match fields with
  | [] => none
  | (k2, v) :: rest => if k2 = k then some v else dictGet rest k

/-- app.py lines 104-113: walk nested dict keys, `None` if any step is not a
dict or lacks the key, else `float(...)` with failure mapped to `None`. -/
def pluck_num : Json → List String → Option ℚ
  | cur, [] => toFloat cur
  | cur, k :: ks =>
    match cur with
    | .obj fields =>
      match dictGet fields k with
      | some v => pluck_num v ks
      | none => none
    | _ => none

/-- Spec-side path resolution: the JSON value reached by following the keys,
if every step goes through a dict that has the key. -/
def resolvePath : Json → List String → Option Json
  | v, [] => some v
  | .obj fields, k :: ks =>
    match dictGet fields k with
    | some v => resolvePath v ks
    | none => none
  | _, _ :: _ => none

/-- app.py lines 135-140: winrate is `games_won / (games_won + games_lost)`
when both are present (not NaN) and the sum is positive, else `None`. -/
def winrateOf (won lost : Option ℚ) : Option ℚ :=
  match won, lost with
  | some w, some l => if w + l > 0 then some (w / (w + l)) else none
  | _, _ => none

/-- One flattened row of the normalized table (app.py lines 119-131 plus the
two derived columns of lines 135-141). -/
structure StatRow where
  hero : String
  games_played : Option ℚ
  games_won : Option ℚ
  games_lost : Option ℚ
  time_played_sec : Option ℚ
  eliminations : Option ℚ
  deaths : Option ℚ
  hero_damage_done : Option ℚ
  healing_done : Option ℚ
  winrate : Option ℚ
  time_played_min : Option ℚ
deriving DecidableEq

/-- The row built for one hero key (app.py lines 119-131), with the derived
columns of lines 135-141 computed per row (the column-wise `apply` and the
vectorised division act row by row, with NaN propagating to NaN). -/
def rowOfHero (hero_key : String) (h : Json) : StatRow :=
  let gw := pluck_num h ["game", "games_won"]
  let gl := pluck_num h ["game", "games_lost"]
  let tps := pluck_num h ["game", "time_played"]
  { hero := hero_key
    games_played := pluck_num h ["game", "games_played"]
    games_won := gw
    games_lost := gl
    time_played_sec := tps
    eliminations := pluck_num h ["combat", "eliminations"]
    deaths := pluck_num h ["combat", "deaths"]
    hero_damage_done := pluck_num h ["combat", "hero_damage_done"]
    healing_done := pluck_num h ["assists", "healing_done"]
    winrate := winrateOf gw gl
    time_played_min := tps.map (fun q => q / 60) }

/-- app.py lines 115-142: one row per hero key, in input (insertion) order. -/
def career_to_table (career : List (String × Json)) : List StatRow :=
  career.map (fun p => rowOfHero p.1 p.2)

/-! ## Snapshot store (app.py lines 74-102 and 229-268) -/

/-- One CSV cell: a string, a finite number, or absent (empty cell / NaN). -/
inductive Cell where
  | str (s : String)
  | num (q : ℚ)
  | absent
deriving DecidableEq

/-- A pandas DataFrame / CSV file at cell granularity: column names plus
rows of cells (each row positionally aligned with the header). -/
structure DataFrame where
  header : List String
  rows : List (List Cell)
deriving DecidableEq

/-- The fixed snapshot schema (app.py lines 78-93 and 245-249). -/
def SNAP_COLUMNS : List String :=
  ["timestamp", "battletag", "player_id", "gamemode", "platform", "hero",
   "games_played", "games_won", "games_lost", "time_played_sec",
   "eliminations", "deaths", "hero_damage_done", "healing_done"]

/-- Column order of the normalized table as built by `career_to_table`. -/
def TABLE_COLUMNS : List String :=
  ["hero", "games_played", "games_won", "games_lost", "time_played_sec",
   "eliminations", "deaths", "hero_damage_done", "healing_done",
   "winrate", "time_played_min"]

/-- An optional numeric value as a CSV cell. -/
def cellOf : Option ℚ → Cell
  | some q => .num q
  | none => .absent

/-- The cells of one normalized row, in `TABLE_COLUMNS` order. -/
def rowCells (r : StatRow) : List Cell :=
  [.str r.hero, cellOf r.games_played, cellOf r.games_won, cellOf r.games_lost,
   cellOf r.time_played_sec, cellOf r.eliminations, cellOf r.deaths,
   cellOf r.hero_damage_done, cellOf r.healing_done, cellOf r.winrate,
   cellOf r.time_played_min]

/-- The session table as a DataFrame. -/
def tableToDF (t : List StatRow) : DataFrame :=
  ⟨TABLE_COLUMNS, t.map rowCells⟩

/-- `df[col] = v` with a constant: overwrite the column if present, else
append it on the right (pandas column assignment). -/
def DataFrame.setConst (df : DataFrame) (col : String) (v : Cell) : DataFrame :=
  match df.header.indexOf? col with
  | some i => ⟨df.header, df.rows.map (fun r => r.set i v)⟩
  | none => ⟨df.header ++ [col], df.rows.map (fun r => r ++ [v])⟩

/-- `df[cols]`: select columns by name in the given order; `none` models the
KeyError pandas raises when a requested column is missing. -/
def DataFrame.selectCols (df : DataFrame) (cols : List String) : Option DataFrame :=
  if cols.all (fun c => df.header.contains c) then
    some ⟨cols, df.rows.map (fun r => cols.map (fun c =>
      match df.header.indexOf? c with
      | some i => r.getD i Cell.absent
      | none => Cell.absent))⟩
  else none

/-- Reindex rows to a new column list, filling missing columns with NaN. -/
def DataFrame.reindex (df : DataFrame) (cols : List String) : DataFrame :=
  ⟨cols, df.rows.map (fun r => cols.map (fun c =>
    match df.header.indexOf? c with
    | some i => r.getD i Cell.absent
    | none => Cell.absent))⟩

/-- `pd.concat([a, b], ignore_index=True)`: identical headers append rows;
otherwise columns are aligned by name (first frame's columns, then the new
ones of the second) with NaN fill. -/
def DataFrame.concatRI (a b : DataFrame) : DataFrame :=
  if a.header = b.header then ⟨a.header, a.rows ++ b.rows⟩
  else
    let cols := a.header ++ b.header.filter (fun c => !a.header.contains c)
    ⟨cols, (a.reindex cols).rows ++ (b.reindex cols).rows⟩

/-- `df[df[col] == v]`: keep the rows whose cell in `col` equals `v`. -/
def DataFrame.filterEq (df : DataFrame) (col : String) (v : Cell) : DataFrame :=
  match df.header.indexOf? col with
  | some i => ⟨df.header, df.rows.filter (fun r => decide (r.getD i Cell.absent = v))⟩
  | none => ⟨df.header, df.rows⟩

/-- Error taxonomy the spec assigns to the store. -/
inductive StoreError where
  | storeCorrupt
deriving DecidableEq

/-- The snapshot file: `none` when `data/snapshots.csv` does not exist. -/
def SnapFile := Option DataFrame

/-- app.py lines 74-95 (`ensure_snap_file`): create the file with the schema
header and no data rows when absent, leave it untouched otherwise. -/
def ensure_snap_file : Option DataFrame → Option DataFrame
  | none => some ⟨SNAP_COLUMNS, []⟩
  | some df => some df

/-- app.py lines 97-99 (`load_snaps`): ensure the file exists, then
`pd.read_csv` it.  The source performs no header validation, so no
`StoreCorrupt` error is ever produced; the `Except` return type records
where the spec expects one. -/
def load_snaps (fs : Option DataFrame) : Except StoreError DataFrame :=
  match ensure_snap_file fs with
  | some df => .ok df
  | none => .ok ⟨SNAP_COLUMNS, []⟩

/-- app.py lines 101-102 (`save_snaps`): rewrite the whole file. -/
def save_snaps (df : DataFrame) (_fs : Option DataFrame) : Option DataFrame :=
  some df

/-- Session context consumed by `do_save` (app.py lines 233-242). -/
structure SaveCtx where
  pid : Option String
  battletag : String
  gamemode : String
  platform : String
  timestamp : String

/-- How a save attempt ended: precondition warning, pandas KeyError while
selecting the snapshot columns, or a successful write. -/
inductive SaveOutcome where
  | warned
  | keyError
  | saved
deriving DecidableEq

/-- Python truthiness test `not st.session_state.pid` for an optional string. -/
def pyFalsy : Option String → Bool
  | none => true
  | some s => s.isEmpty

/-- app.py lines 229-254 (`do_save`): reject when nothing to save or no
fetch happened; otherwise stamp the identity columns, keep the snapshot
columns, concat onto the loaded store and rewrite the file. -/
def do_save (ctx : SaveCtx) (snaps : DataFrame) (dfToSave : DataFrame)
    (fs : Option DataFrame) : Option DataFrame × SaveOutcome :=
  if dfToSave.rows.isEmpty || pyFalsy ctx.pid then (fs, .warned)
  else
    let dfOut := ((((dfToSave.setConst "timestamp" (.str ctx.timestamp)).setConst
        "battletag" (.str ctx.battletag)).setConst
        "player_id" (.str (ctx.pid.getD ""))).setConst
        "gamemode" (.str ctx.gamemode)).setConst
        "platform" (.str ctx.platform)
    match dfOut.selectCols SNAP_COLUMNS with
    | none => (fs, .keyError)
    | some out => (save_snaps (snaps.concatRI out) fs, .saved)

/-- app.py lines 256-259: the "Save Snapshot (all-heroes)" handler filters
the current table to the all-heroes sentinel row before saving. -/
def save_all_handler (ctx : SaveCtx) (table : DataFrame) (snaps : DataFrame)
    (fs : Option DataFrame) : Option DataFrame × SaveOutcome :=
  if table.rows.isEmpty then (fs, .warned)
  else do_save ctx snaps (table.filterEq "hero" (.str "all-heroes")) fs

/-- The cells of one persisted snapshot row, in `SNAP_COLUMNS` order, as
produced by `do_save` for a normalized table row. -/
def snapCells (ctx : SaveCtx) (r : StatRow) : List Cell :=
  [.str ctx.timestamp, .str ctx.battletag, .str (ctx.pid.getD ""),
   .str ctx.gamemode, .str ctx.platform, .str r.hero,
   cellOf r.games_played, cellOf r.games_won, cellOf r.games_lost,
   cellOf r.time_played_sec, cellOf r.eliminations, cellOf r.deaths,
   cellOf r.hero_damage_done, cellOf r.healing_done]

def anaStats : Json :=
  .obj [("game", .obj [("games_played", .num 12), ("games_won", .num 3),
      ("games_lost", .num 1), ("time_played", .num 600)]),
    ("combat", .obj [("eliminations", .num 50), ("deaths", .num 10),
      ("hero_damage_done", .num 1000)]),
    ("assists", .obj [("healing_done", .null)])]

def careerW : List (String × Json) := [("ana", anaStats)]

def ctxW : SaveCtx :=
  ⟨some "Player-123", "Player#123", "competitive", "pc", "2026-10-12T00:00:00+00:00"⟩

def rowA : StatRow :=
  ⟨"all-heroes", some 10, some 6, some 4, some 3600, some 100, some 20,
   some 5000, some 1200, some (3 / 5), some 60⟩

def rowB : StatRow :=
  ⟨"ana", some 4, some 3, some 1, some 1200, some 30, some 5,
   some 1500, some 900, some (3 / 4), some 20⟩

def rowC : StatRow :=
  ⟨"mercy", some 2, some 1, some 1, some 800, some 8, some 3,
   some 600, some 4000, some (1 / 2), some (40 / 3)⟩

lemma dfOut_select (ctx : SaveCtx) (t : List StatRow) :
    (DataFrame.selectCols
      ((((((tableToDF t).setConst "timestamp" (Cell.str ctx.timestamp)).setConst
        "battletag" (Cell.str ctx.battletag)).setConst
        "player_id" (Cell.str (ctx.pid.getD ""))).setConst
        "gamemode" (Cell.str ctx.gamemode)).setConst
        "platform" (Cell.str ctx.platform))
      SNAP_COLUMNS) = some ⟨SNAP_COLUMNS, t.map (snapCells ctx)⟩ := by
  induction t with
  | nil => rfl
  | cons r t ih =>
    have h2 := congrArg (fun o : Option DataFrame => (o.getD ⟨[], []⟩).rows) ih
    exact congrArg some (congrArg (DataFrame.mk SNAP_COLUMNS) (congrArg₂ List.cons rfl h2))

lemma overfastLoop_succ_429 (responses : ℕ → Response) (url : String) (n attempt : ℕ)
    (d : ℚ) (hs : (responses attempt).status = 429) :
    overfastLoop responses url (n + 1) attempt d =
      ⟨(overfastLoop responses url n (attempt + 1) (min (d * 2) 30)).outcome,
       (overfastLoop responses url n (attempt + 1) (min (d * 2) 30)).attempts + 1,
       d :: (overfastLoop responses url n (attempt + 1) (min (d * 2) 30)).delaysUsed,
       retryAfterWait (responses attempt).retryAfter d ::
         (overfastLoop responses url n (attempt + 1) (min (d * 2) 30)).waits⟩ := by
  simp [overfastLoop, hs]

lemma overfastLoop_succ_non429 (responses : ℕ → Response) (url : String) (n attempt : ℕ)
    (d : ℚ) (hs : (responses attempt).status ≠ 429) :
    (overfastLoop responses url (n + 1) attempt d).waits = [] ∧
      (overfastLoop responses url (n + 1) attempt d).delaysUsed = [] := by
  by_cases h4 : 400 ≤ (responses attempt).status
  · simp [overfastLoop, hs, h4]
  · cases hb : (responses attempt).body <;> simp [overfastLoop, hs, h4, hb]

lemma overfastLoop_succ_ok (responses : ℕ → Response) (url : String) (n attempt : ℕ)
    (d : ℚ) (j : Json) (hs : (responses attempt).status < 400)
    (hb : (responses attempt).body = some j) :
    overfastLoop responses url (n + 1) attempt d = ⟨.ok j, 1, [], []⟩ := by
  have h429 : (responses attempt).status ≠ 429 := by omega
  have h400 : ¬ 400 ≤ (responses attempt).status := by omega
  simp [overfastLoop, h429, h400, hb]

lemma delays_succ (n : ℕ) : delays (n + 1) = min (delays n * 2) 30 := rfl

lemma delays_eq (k : ℕ) : delays k = min ((2 : ℚ) ^ k) 30 := by
  induction k with
  | zero => simp [delays]
  | succ n ih =>
    rw [delays_succ, ih]
    rcases le_total ((2 : ℚ) ^ n) 30 with h | h
    · rw [min_eq_left h, pow_succ]
    · rw [min_eq_right h, min_eq_right (by norm_num : (30 : ℚ) ≤ 30 * 2)]
      have h2 : (30 : ℚ) ≤ 2 ^ (n + 1) := by
        calc (30 : ℚ) ≤ 2 ^ n := h
        _ ≤ 2 ^ (n + 1) := by
          have := pow_le_pow_right₀ (by norm_num : (1:ℚ) ≤ 2) (Nat.le_succ n)
          exact this
      rw [min_eq_right h2]

lemma overfastLoop_trace (responses : ℕ → Response) (url : String) :
    ∀ (fuel a j k : ℕ), k < (overfastLoop responses url fuel a (delays j)).waits.length →
      (overfastLoop responses url fuel a (delays j)).waits[k]? =
          some (retryAfterWait (responses (a + k)).retryAfter (delays (j + k))) ∧
        (overfastLoop responses url fuel a (delays j)).delaysUsed[k]? = some (delays (j + k)) := by
  intro fuel
  induction fuel with
  | zero => intro a j k hk; simp [overfastLoop] at hk
  | succ n ih =>
    intro a j k hk
    by_cases hs : (responses a).status = 429
    · rw [overfastLoop_succ_429 responses url n a (delays j) hs, ← delays_succ] at hk ⊢
      cases k with
      | zero => simp
      | succ k =>
        simp only [List.length_cons, Nat.add_lt_add_iff_right] at hk
        have := ih (a + 1) (j + 1) k hk
        have e1 : a + 1 + k = a + (k + 1) := by omega
        have e2 : j + 1 + k = j + (k + 1) := by omega
        rw [e1, e2] at this
        simpa using this
    · obtain ⟨h1, _⟩ := overfastLoop_succ_non429 responses url n a (delays j) hs
      rw [h1] at hk
      simp at hk

lemma overfastLoop_lengths (responses : ℕ → Response) (url : String) :
    ∀ (fuel a : ℕ) (d : ℚ),
      (overfastLoop responses url fuel a d).delaysUsed.length =
        (overfastLoop responses url fuel a d).waits.length := by
  intro fuel
  induction fuel with
  | zero => intro a d; rfl
  | succ n ih =>
    intro a d
    by_cases hs : (responses a).status = 429
    · rw [overfastLoop_succ_429 responses url n a d hs]
      simp [ih]
    · obtain ⟨h1, h2⟩ := overfastLoop_succ_non429 responses url n a d hs
      rw [h1, h2]

lemma overfastLoop_all429 (responses : ℕ → Response) (url : String)
    (hall : ∀ i, (responses i).status = 429) :
    ∀ (fuel a : ℕ) (d : ℚ),
      (overfastLoop responses url fuel a d).outcome = .error (.rateLimited url) ∧
        (overfastLoop responses url fuel a d).attempts = fuel := by
  intro fuel
  induction fuel with
  | zero => intro a d; exact ⟨rfl, rfl⟩
  | succ n ih =>
    intro a d
    rw [overfastLoop_succ_429 responses url n a d (hall a)]
    exact ⟨(ih (a + 1) _).1, by simp [(ih (a + 1) _).2]⟩

lemma retryAfterWait_no_hint (r : Response) (d : ℚ) (h : hintUsable r = false) :
    retryAfterWait r.retryAfter d = d := by
  unfold hintUsable at h
  unfold retryAfterWait
  cases hr : r.retryAfter with
  | none => rfl
  | some s =>
    rw [hr] at h
    simp only at h
    simp [h]

lemma band_isEmpty_pyIsDigit (s : String) :
    (!s.isEmpty && pyIsDigit s) = pyIsDigit s := by
  unfold pyIsDigit
  cases s.isEmpty <;> simp

lemma overfastLoop_429_of_lt (responses : ℕ → Response) (url : String) :
    ∀ (fuel a : ℕ) (d : ℚ) (k : ℕ),
      k < (overfastLoop responses url fuel a d).waits.length →
      (responses (a + k)).status = 429 := by
  intro fuel
  induction fuel with
  | zero => intro a d k hk; simp [overfastLoop] at hk
  | succ n ih =>
    intro a d k hk
    by_cases hs : (responses a).status = 429
    · rw [overfastLoop_succ_429 responses url n a d hs] at hk
      cases k with
      | zero => simpa using hs
      | succ k =>
        simp only [List.length_cons, Nat.add_lt_add_iff_right] at hk
        have := ih (a + 1) _ k hk
        rwa [show a + 1 + k = a + (k + 1) from by omega] at this
    · obtain ⟨h1, _⟩ := overfastLoop_succ_non429 responses url n a d hs
      rw [h1] at hk
      simp at hk

/-- C1: when no 429 response carries a usable Retry-After hint, the wait
before the Nth retry (the k-th recorded wait, k = N-1) equals
min(1 * 2^(N-1), 30): the delays run 1, 2, 4, 8, 16, then 30 repeated. -/
theorem backoff_delay_formula (responses : ℕ → Response) (path : String)
    (max_retries k : ℕ)
    (hno : ∀ i, (responses i).status = 429 → hintUsable (responses i) = false)
    (hk : k < (overfast_get responses path max_retries).waits.length) :
    (overfast_get responses path max_retries).waits[k]? = some (min ((2 : ℚ) ^ k) 30) := by
  have h429 := overfastLoop_429_of_lt responses (BASE_URL ++ path) max_retries 0 1 k hk
  simp only [Nat.zero_add] at h429
  unfold overfast_get at hk ⊢
  have h1 : (1 : ℚ) = delays 0 := rfl
  rw [h1] at hk ⊢
  have h := (overfastLoop_trace responses (BASE_URL ++ path) max_retries 0 0 k hk).1
  simp only [Nat.zero_add] at h
  rw [h, retryAfterWait_no_hint _ _ (hno k h429), delays_eq]

theorem backoff_delay_formula_witness :
    (overfast_get (fun _ => ⟨429, none, none⟩) "/players/x/stats" 6).waits[5]? =
      some (min ((2 : ℚ) ^ 5) 30) :=
  backoff_delay_formula (fun _ => ⟨429, none, none⟩) "/players/x/stats" 6 5
    (fun _ _ => rfl) (by decide)

/-- C2: a transport answering 429 forever makes `overfast_get` perform
exactly `max_retries` attempts and fail with the terminal rate-limit error
carrying the URL; a transport answering 429, 429, then 200 makes it perform
exactly 3 attempts and return the parsed body of the 200 response. -/
theorem retry_budget_termination :
    (∀ (responses : ℕ → Response) (path : String) (n : ℕ),
        (∀ i, (responses i).status = 429) →
        (overfast_get responses path n).outcome =
            .error (.rateLimited (BASE_URL ++ path)) ∧
          (overfast_get responses path n).attempts = n) ∧
      ∀ (responses : ℕ → Response) (path : String) (j : Json),
        (responses 0).status = 429 → (responses 1).status = 429 →
        (responses 2).status = 200 → (responses 2).body = some j →
        (overfast_get responses path 5).outcome = .ok j ∧
          (overfast_get responses path 5).attempts = 3 := by
  constructor
  · intro responses path n hall
    exact overfastLoop_all429 responses (BASE_URL ++ path) hall n 0 1
  · intro responses path j h0 h1 h2 hb
    unfold overfast_get
    have e5 : (5 : ℕ) = 4 + 1 := rfl
    have e4 : (4 : ℕ) = 3 + 1 := rfl
    have e3 : (3 : ℕ) = 2 + 1 := rfl
    rw [e5, overfastLoop_succ_429 _ _ _ _ _ h0, e4, overfastLoop_succ_429 _ _ _ _ _ h1,
      e3, overfastLoop_succ_ok _ _ _ _ _ j (by omega) hb]
    exact ⟨rfl, rfl⟩

theorem retry_budget_termination_witness :
    ((overfast_get (fun _ => ⟨429, none, none⟩) "/p" 5).outcome =
        .error (.rateLimited (BASE_URL ++ "/p")) ∧
      (overfast_get (fun _ => ⟨429, none, none⟩) "/p" 5).attempts = 5) ∧
      (overfast_get (fun i => if i < 2 then ⟨429, none, none⟩ else ⟨200, none, some (.num 5)⟩)
          "/q" 5).outcome = .ok (.num 5) ∧
      (overfast_get (fun i => if i < 2 then ⟨429, none, none⟩ else ⟨200, none, some (.num 5)⟩)
          "/q" 5).attempts = 3 :=
  ⟨retry_budget_termination.1 (fun _ => ⟨429, none, none⟩) "/p" 5 (fun _ => rfl),
   retry_budget_termination.2 (fun i => if i < 2 then ⟨429, none, none⟩ else ⟨200, none, some (.num 5)⟩)
     "/q" (.num 5) rfl rfl rfl rfl⟩

/-- C3: the k-th wait equals the Retry-After value whenever that header is a
nonempty all-digits (non-negative integer) string, and equals the current
backoff delay min(2^k, 30) otherwise (header absent or not such a string). -/
theorem retry_after_precedence (responses : ℕ → Response) (path : String)
    (max_retries k : ℕ)
    (hk : k < (overfast_get responses path max_retries).waits.length) :
    (overfast_get responses path max_retries).waits[k]? =
      some (match (responses k).retryAfter with
        | some s => if pyIsDigit s then (digitsVal s.toList : ℚ) else min ((2 : ℚ) ^ k) 30
        | none => min ((2 : ℚ) ^ k) 30) := by
  unfold overfast_get at hk ⊢
  have h1 : (1 : ℚ) = delays 0 := rfl
  rw [h1] at hk ⊢
  have h := (overfastLoop_trace responses (BASE_URL ++ path) max_retries 0 0 k hk).1
  simp only [Nat.zero_add] at h
  rw [h, delays_eq]
  unfold retryAfterWait
  cases hr : (responses k).retryAfter with
  | none => rfl
  | some s => simp [band_isEmpty_pyIsDigit]

theorem retry_after_precedence_witness :
    (overfast_get (fun _ => ⟨429, some "7", none⟩) "/p" 5).waits[2]? = some 7 := by
  have h := retry_after_precedence (fun _ => ⟨429, some "7", none⟩) "/p" 5 2 (by decide)
  simpa using h

/-- C10: the stored backoff delay in effect at the k-th 429 equals
min(2^k, 30) for every transport, hints included: honoring a Retry-After
hint changes only the current wait, never the backoff state. -/
theorem backoff_state_ignores_hint (responses : ℕ → Response) (path : String)
    (max_retries k : ℕ)
    (hk : k < (overfast_get responses path max_retries).delaysUsed.length) :
    (overfast_get responses path max_retries).delaysUsed[k]? =
      some (min ((2 : ℚ) ^ k) 30) := by
  unfold overfast_get at hk ⊢
  have h1 : (1 : ℚ) = delays 0 := rfl
  rw [h1] at hk ⊢
  rw [overfastLoop_lengths] at hk
  have h := (overfastLoop_trace responses (BASE_URL ++ path) max_retries 0 0 k hk).2
  simp only [Nat.zero_add] at h
  rw [h, delays_eq]

theorem backoff_state_ignores_hint_witness :
    (overfast_get (fun _ => ⟨429, some "7", none⟩) "/p" 5).delaysUsed[2]? =
      some (min ((2 : ℚ) ^ 2) 30) :=
  backoff_state_ignores_hint (fun _ => ⟨429, some "7", none⟩) "/p" 5 2 (by decide)

lemma pluck_eq_resolve (d : Json) (ks : List String) :
    pluck_num d ks = (resolvePath d ks).bind toFloat := by
  induction ks generalizing d with
  | nil => cases d <;> rfl
  | cons k ks ih =>
    cases d with
    | obj fields =>
      simp only [pluck_num, resolvePath]
      cases dictGet fields k with
      | none => rfl
      | some v => exact ih v
    | null => rfl
    | bool b => rfl
    | num q => rfl
    | str s => rfl
    | arr items => rfl

/-- C4: the normalizer is total: it returns one row per hero key (never
raising), and each numeric field is exactly the value of its fixed nested
path coerced to a number when that path resolves to a coercible value, and
absent in every other case. -/
theorem normalizer_total (career : List (String × Json)) :
    (career_to_table career).length = career.length ∧
      ∀ (i : ℕ) (hi : i < career.length) (hi2 : i < (career_to_table career).length),
        (career_to_table career).get ⟨i, hi2⟩ =
          { hero := (career.get ⟨i, hi⟩).1
            games_played :=
              (resolvePath (career.get ⟨i, hi⟩).2 ["game", "games_played"]).bind toFloat
            games_won :=
              (resolvePath (career.get ⟨i, hi⟩).2 ["game", "games_won"]).bind toFloat
            games_lost :=
              (resolvePath (career.get ⟨i, hi⟩).2 ["game", "games_lost"]).bind toFloat
            time_played_sec :=
              (resolvePath (career.get ⟨i, hi⟩).2 ["game", "time_played"]).bind toFloat
            eliminations :=
              (resolvePath (career.get ⟨i, hi⟩).2 ["combat", "eliminations"]).bind toFloat
            deaths :=
              (resolvePath (career.get ⟨i, hi⟩).2 ["combat", "deaths"]).bind toFloat
            hero_damage_done :=
              (resolvePath (career.get ⟨i, hi⟩).2 ["combat", "hero_damage_done"]).bind toFloat
            healing_done :=
              (resolvePath (career.get ⟨i, hi⟩).2 ["assists", "healing_done"]).bind toFloat
            winrate :=
              winrateOf ((resolvePath (career.get ⟨i, hi⟩).2 ["game", "games_won"]).bind toFloat)
                ((resolvePath (career.get ⟨i, hi⟩).2 ["game", "games_lost"]).bind toFloat)
            time_played_min :=
              ((resolvePath (career.get ⟨i, hi⟩).2 ["game", "time_played"]).bind toFloat).map
                (fun q => q / 60) } := by
  refine ⟨by simp [career_to_table], ?_⟩
  intro i hi hi2
  simp only [career_to_table, List.get_eq_getElem, List.getElem_map]
  simp [rowOfHero, pluck_eq_resolve]

theorem normalizer_total_witness :
    (career_to_table careerW).length = careerW.length ∧
      (career_to_table careerW).get ⟨0, by decide⟩ =
        { hero := "ana", games_played := some 12, games_won := some 3,
          games_lost := some 1, time_played_sec := some 600, eliminations := some 50,
          deaths := some 10, hero_damage_done := some 1000, healing_done := none,
          winrate := some (3 / 4), time_played_min := some 10 } := by
  refine ⟨(normalizer_total careerW).1,
    ((normalizer_total careerW).2 0 (by decide) (by decide)).trans ?_⟩
  have hw : winrateOf (some 3) (some 1) = some (3 / 4) := by norm_num [winrateOf]
  have ht : Option.map (fun q : ℚ => q / 60) (some 600) = some 10 := by norm_num
  show ({ hero := "ana", games_played := some 12, games_won := some 3,
          games_lost := some 1, time_played_sec := some 600, eliminations := some 50,
          deaths := some 10, hero_damage_done := some 1000, healing_done := none,
          winrate := winrateOf (some 3) (some 1),
          time_played_min := Option.map (fun q : ℚ => q / 60) (some 600) } : StatRow) = _
  rw [hw, ht]

/-- C8: every normalized row has winrate = games_won / (games_won +
games_lost) exactly when both fields are present and their sum is positive,
and an absent winrate otherwise; (0, 0) gives absent, (3, 1) gives 3/4. -/
theorem winrate_rule :
    (∀ (career : List (String × Json)) (r : StatRow), r ∈ career_to_table career →
        r.winrate = winrateOf r.games_won r.games_lost) ∧
      (∀ w l : ℚ, 0 < w + l → winrateOf (some w) (some l) = some (w / (w + l))) ∧
      (∀ w l : ℚ, w + l ≤ 0 → winrateOf (some w) (some l) = none) ∧
      (∀ x : Option ℚ, winrateOf none x = none ∧ winrateOf x none = none) ∧
      winrateOf (some 0) (some 0) = none ∧
      winrateOf (some 3) (some 1) = some (3 / 4) := by
  refine ⟨?_, ?_, ?_, ?_, by norm_num [winrateOf], by norm_num [winrateOf]⟩
  · intro career r hr
    simp only [career_to_table, List.mem_map] at hr
    obtain ⟨p, _, rfl⟩ := hr
    rfl
  · intro w l h
    simp [winrateOf, h]
  · intro w l h
    simp [winrateOf, not_lt.mpr h]
  · intro x
    exact ⟨rfl, by cases x <;> rfl⟩

theorem winrate_rule_witness :
    (rowOfHero "ana" anaStats).winrate =
        winrateOf (rowOfHero "ana" anaStats).games_won (rowOfHero "ana" anaStats).games_lost ∧
      winrateOf (some 3) (some 1) = some (3 / 4) ∧
      winrateOf (some 0) (some 0) = none :=
  ⟨winrate_rule.1 careerW (rowOfHero "ana" anaStats) (by simp [career_to_table, careerW]),
   winrate_rule.2.2.2.2.2, winrate_rule.2.2.2.2.1⟩

lemma concatRI_same_header (a b : DataFrame) (h : a.header = b.header) :
    a.concatRI b = ⟨a.header, a.rows ++ b.rows⟩ := by
  unfold DataFrame.concatRI
  rw [if_pos h]

lemma isEmpty_false_of_ne (p : String) (hp : p ≠ "") : p.isEmpty = false := by
  rcases he : p.isEmpty with _ | _
  · rfl
  · exact absurd ((String.isEmpty_iff p).mp he) hp

lemma do_save_eq (ctx : SaveCtx) (snaps : DataFrame) (t : List StatRow)
    (fs : Option DataFrame) (p : String) (hh : snaps.header = SNAP_COLUMNS)
    (hne : t ≠ []) (hpid : ctx.pid = some p) (hp : p ≠ "") :
    do_save ctx snaps (tableToDF t) fs =
      (some ⟨SNAP_COLUMNS, snaps.rows ++ t.map (snapCells ctx)⟩, .saved) := by
  have hfalsy : pyFalsy ctx.pid = false := by
    rw [hpid]
    exact isEmpty_false_of_ne p hp
  have hempty : (tableToDF t).rows.isEmpty = false := by
    simp [tableToDF]
    exact hne
  unfold do_save
  rw [hempty, hfalsy]
  simp only [Bool.or_self, Bool.false_eq_true, if_false]
  rw [dfOut_select ctx t]
  simp only []
  rw [concatRI_same_header snaps ⟨SNAP_COLUMNS, t.map (snapCells ctx)⟩ (by rw [hh])]
  unfold save_snaps
  rw [hh]

/-- C6: saving a normalized table batch and then loading returns exactly the
prior store contents followed by the new rows, in order, with every cell of
the new rows carrying the exact stamped identity values and stat values. -/
theorem save_load_roundtrip (ctx : SaveCtx) (snaps : DataFrame) (t : List StatRow)
    (fs : Option DataFrame) (p : String) (hh : snaps.header = SNAP_COLUMNS)
    (hne : t ≠ []) (hpid : ctx.pid = some p) (hp : p ≠ "") :
    load_snaps (do_save ctx snaps (tableToDF t) fs).1 =
        .ok ⟨SNAP_COLUMNS, snaps.rows ++ t.map (snapCells ctx)⟩ ∧
      (do_save ctx snaps (tableToDF t) fs).2 = .saved := by
  rw [do_save_eq ctx snaps t fs p hh hne hpid hp]
  exact ⟨rfl, rfl⟩

theorem save_load_roundtrip_witness :
    load_snaps (do_save ctxW ⟨SNAP_COLUMNS, []⟩ (tableToDF [rowA, rowB])
          (some ⟨SNAP_COLUMNS, []⟩)).1 =
        .ok ⟨SNAP_COLUMNS, [snapCells ctxW rowA, snapCells ctxW rowB]⟩ ∧
      (do_save ctxW ⟨SNAP_COLUMNS, []⟩ (tableToDF [rowA, rowB])
          (some ⟨SNAP_COLUMNS, []⟩)).2 = .saved :=
  save_load_roundtrip ctxW ⟨SNAP_COLUMNS, []⟩ [rowA, rowB] (some ⟨SNAP_COLUMNS, []⟩)
    "Player-123" rfl (List.cons_ne_nil _ _) rfl (by decide)

/-- C7: `ensure_snap_file` creates the file with exactly the 14 schema
columns in order and zero data rows when it does not exist, and leaves an
existing file untouched (idempotent, never truncating). -/
theorem ensure_schema :
    ensure_snap_file none =
        some ⟨["timestamp", "battletag", "player_id", "gamemode", "platform", "hero",
          "games_played", "games_won", "games_lost", "time_played_sec",
          "eliminations", "deaths", "hero_damage_done", "healing_done"], []⟩ ∧
      SNAP_COLUMNS.length = 14 ∧
      (∀ df, ensure_snap_file (some df) = some df) ∧
      ∀ fs, ensure_snap_file (ensure_snap_file fs) = ensure_snap_file fs := by
  refine ⟨rfl, rfl, fun df => rfl, fun fs => ?_⟩
  cases fs <;> rfl

/-- C5 counterexample: a file whose header does not match the schema is
loaded without any `StoreCorrupt` error — `load_snaps` returns its contents
unchanged. -/
theorem load_header_mismatch_cex :
    load_snaps (some ⟨["foo", "bar"], [[Cell.num 1, Cell.num 2]]⟩) =
        .ok ⟨["foo", "bar"], [[Cell.num 1, Cell.num 2]]⟩ ∧
      (["foo", "bar"] : List String) ≠ SNAP_COLUMNS :=
  ⟨rfl, by decide⟩

/-- C5 amended: `load_snaps` performs no header validation: an existing file
is returned exactly as stored (no error, no dropped rows) whatever its
header, and a missing file loads as the empty table with the schema header. -/
theorem load_no_validation :
    (∀ df : DataFrame, load_snaps (some df) = .ok df) ∧
      load_snaps none = .ok ⟨SNAP_COLUMNS, []⟩ :=
  ⟨fun df => rfl, rfl⟩

lemma filterEq_tableToDF (t : List StatRow) (h : String) :
    (tableToDF t).filterEq "hero" (.str h) =
      tableToDF (t.filter fun r => decide (r.hero = h)) := by
  show DataFrame.mk TABLE_COLUMNS ((t.map rowCells).filter fun r =>
      decide (r.getD 0 Cell.absent = Cell.str h)) = _
  unfold tableToDF
  rw [List.filter_map]
  refine congrArg (DataFrame.mk TABLE_COLUMNS) (congrArg (List.map rowCells) ?_)
  refine List.filter_congr fun r _ => ?_
  show decide (Cell.str r.hero = Cell.str h) = decide (r.hero = h)
  rw [decide_eq_decide]
  simp [Cell.str.injEq]

/-- C9: on a table holding rows for {all-heroes, ana, mercy} with a single
all-heroes row, the "save aggregate only" handler persists exactly one new
row, and its hero cell is the all-heroes sentinel. -/
theorem save_aggregate_only (ctx : SaveCtx) (snaps : DataFrame) (t : List StatRow)
    (fs : Option DataFrame) (p : String) (r0 : StatRow)
    (hh : snaps.header = SNAP_COLUMNS)
    (hfilter : (t.filter fun r => decide (r.hero = "all-heroes")) = [r0])
    (hana : "ana" ∈ t.map StatRow.hero) (hmercy : "mercy" ∈ t.map StatRow.hero)
    (hpid : ctx.pid = some p) (hp : p ≠ "") :
    load_snaps (save_all_handler ctx (tableToDF t) snaps fs).1 =
        .ok ⟨SNAP_COLUMNS, snaps.rows ++ [snapCells ctx r0]⟩ ∧
      (save_all_handler ctx (tableToDF t) snaps fs).2 = .saved ∧
      r0.hero = "all-heroes" := by
  have hne : t ≠ [] := by
    intro he
    rw [he] at hfilter
    exact absurd hfilter (by simp)
  have hr0 : r0.hero = "all-heroes" := by
    have hm : r0 ∈ t.filter fun r => decide (r.hero = "all-heroes") := by
      rw [hfilter]; exact List.mem_singleton_self r0
    have := (List.mem_filter.mp hm).2
    exact of_decide_eq_true this
  have hempty : (tableToDF t).rows.isEmpty = false := by
    simp [tableToDF]
    exact hne
  unfold save_all_handler
  rw [hempty]
  simp only [Bool.false_eq_true, if_false]
  rw [filterEq_tableToDF, hfilter,
    do_save_eq ctx snaps [r0] fs p hh (List.cons_ne_nil _ _) hpid hp]
  exact ⟨rfl, rfl, hr0⟩

theorem save_aggregate_only_witness :
    load_snaps (save_all_handler ctxW (tableToDF [rowA, rowB, rowC])
          ⟨SNAP_COLUMNS, []⟩ (some ⟨SNAP_COLUMNS, []⟩)).1 =
        .ok ⟨SNAP_COLUMNS, [snapCells ctxW rowA]⟩ ∧
      (save_all_handler ctxW (tableToDF [rowA, rowB, rowC])
          ⟨SNAP_COLUMNS, []⟩ (some ⟨SNAP_COLUMNS, []⟩)).2 = .saved ∧
      rowA.hero = "all-heroes" :=
  save_aggregate_only ctxW ⟨SNAP_COLUMNS, []⟩ [rowA, rowB, rowC]
    (some ⟨SNAP_COLUMNS, []⟩) "Player-123" rowA rfl rfl
    (by simp [rowA, rowB, rowC]) (by simp [rowA, rowB, rowC]) rfl (by decide)

